import Mathlib

/-!
# Verification of the dolphin-survey-labeler reconciliation core

Shallow embedding of `src/src-tauri/src/lib.rs` (the Survey Reconciliation &
Image Correspondence Engine).  Rust strings are Lean `String`s; Rust byte
length (`str::len`) is `String.utf8ByteSize`; Rust byte-wise string ordering
(`str::cmp`) coincides with code-point lexicographic order, embedded below as
`charListLeb` on `String.toList`.  `to_lowercase`/`to_uppercase` are embedded
as `toLowerStr`/`toUpperStr` (ASCII case mapping; all classification
tokens and identity patterns in the program are ASCII).  The external `regex`
crate is embedded abstractly: a compiled regex is a function returning, for an
input string, the list of group-1 captures of its non-overlapping matches in
order (`captures_iter`), or a boolean matcher (`is_match`); the concrete
patterns appearing in the specification examples are additionally implemented
as executable matchers further below.
-/

/-- Word character, as in the regex `\b` boundary (ASCII `\w`: alphanumeric
or underscore). -/
def isWordChar (c : Char) : Bool := c.isAlphanum || c == '_'

/-- Lexicographic less-or-equal on character lists; embeds Rust's byte-wise
`str::cmp` returning `Less` or `Equal` (UTF-8 byte order coincides with
code-point order). -/
def charListLeb : List Char → List Char → Bool
  | [], _ => true
  | _ :: _, [] => false
  | a :: as, b :: bs => if a < b then true else if b < a then false else charListLeb as bs

theorem charListLeb_refl : ∀ as : List Char, charListLeb as as = true := by
  intro as
  induction as with
  | nil => rfl
  | cons a as ih =>
    simp only [charListLeb, lt_irrefl, if_neg (lt_irrefl a)]
    exact ih

theorem charListLeb_total : ∀ as bs : List Char,
    charListLeb as bs = true ∨ charListLeb bs as = true := by
  intro as
  induction as with
  | nil => intro bs; exact Or.inl rfl
  | cons a as ih =>
    intro bs
    cases bs with
    | nil => exact Or.inr rfl
    | cons b bs =>
      simp only [charListLeb]
      rcases lt_trichotomy a b with h | h | h
      · left; rw [if_pos h]
      · subst h
        simp only [if_neg (lt_irrefl a)]
        exact ih bs
      · right; rw [if_pos h]

theorem charListLeb_trans : ∀ as bs cs : List Char,
    charListLeb as bs = true → charListLeb bs cs = true → charListLeb as cs = true := by
  intro as
  induction as with
  | nil => intro bs cs _ _; rfl
  | cons a as ih =>
    intro bs cs h1 h2
    cases bs with
    | nil => simp [charListLeb] at h1
    | cons b bs =>
      cases cs with
      | nil => simp [charListLeb] at h2
      | cons c cs =>
        simp only [charListLeb] at h1 h2 ⊢
        by_cases hab : a < b
        · by_cases hbc : b < c
          · rw [if_pos (lt_trans hab hbc)]
          · by_cases hcb : c < b
            · rw [if_neg hbc, if_pos hcb] at h2
              exact absurd h2 (by simp)
            · have hbc' : b = c := le_antisymm (not_lt.mp hcb) (not_lt.mp hbc)
              subst hbc'
              rw [if_pos hab]
        · by_cases hba : b < a
          · rw [if_neg hab, if_pos hba] at h1
            exact absurd h1 (by simp)
          · have hab' : a = b := le_antisymm (not_lt.mp hba) (not_lt.mp hab)
            subst hab'
            rw [if_neg (lt_irrefl a), if_neg (lt_irrefl a)] at h1
            by_cases hbc : a < c
            · rw [if_pos hbc]
            · by_cases hcb : c < a
              · rw [if_neg hbc, if_pos hcb] at h2
                exact absurd h2 (by simp)
              · have : a = c := le_antisymm (not_lt.mp hcb) (not_lt.mp hbc)
                subst this
                rw [if_neg (lt_irrefl a), if_neg (lt_irrefl a)] at h2 ⊢
                exact ih bs cs h1 h2

/-- Rust `str::to_lowercase`, embedded as per-character ASCII lowering (every
token, pattern and path the program's rules exercise is ASCII). -/
def toLowerStr (s : String) : String := String.mk (s.toList.map Char.toLower)

/-- Rust `str::to_uppercase`, embedded as per-character ASCII raising. -/
def toUpperStr (s : String) : String := String.mk (s.toList.map Char.toUpper)

/-- Substring containment: `containsSub s t` iff `t` occurs contiguously in
`s`; embeds Rust's `str::contains` (substring search). -/
def containsSub (s t : String) : Bool :=
  let cs := s.toList
  let ts := t.toList
  (List.range (cs.length + 1)).any (fun i => ((cs.drop i).take ts.length) == ts)

/-!
## Data model

Mirrors the structs of `lib.rs`.  `PathBuf` is embedded as `String`
(`to_string_lossy` is the identity on valid UTF-8 paths).  A compiled regex
from the `regex` crate is embedded as the list-of-captures function it
induces: `String → List (Option String)` gives, in order, the group-1 capture
of each non-overlapping match (`captures_iter` + `get(1)`); a pure matcher is
`String → Bool` (`is_match`).
-/

structure CompiledRules where
  detected_re : String → List (Option String)
  base_re : String → List (Option String)
  imageIdCapture : String → Option String
  indMatch : String → Bool
  secondary_tokens : List String
  negative_tokens : List String
  positive_tokens : List String

structure SurveyFolder where
  path : String
  detected_id : Option String
deriving DecidableEq

structure CandidateWinner where
  relpath : String
  winner_type : String
deriving DecidableEq

structure ProblemItem where
  survey_id_base : String
  survey_id_detected : Option String
  raw_path : Option String
  graded_path : Option String
  problem_type : String
  details : Option String
deriving DecidableEq

structure ScanEntry where
  base_key : String
  raw : Option SurveyFolder
  graded : Option SurveyFolder
  status : String
deriving DecidableEq

structure ScanResult where
  entries : List ScanEntry
  problems : List ProblemItem
deriving DecidableEq

structure CsvRow where
  survey_id_base : String
  raw_relpath : String
  filename : String
  dolphin : Nat
  graded_relpath : String
  graded_hits : Nat
  graded_winner_type : String
  survey_id_raw_detected : Option String
  survey_id_graded_detected : Option String
deriving DecidableEq

structure PairResult where
  rows : List CsvRow
  ambiguity_warnings : Nat
deriving DecidableEq

structure RunSummary where
  processed_surveys : Nat
  total_rows : Nat
  dolphin_yes : Nat
  dolphin_no : Nat
  ambiguity_warnings : Nat
  problems_count : Nat
  output_dir : String
  merged_csv_path : Option String
  problems_csv_path : Option String
deriving DecidableEq

/-- A raw-side image file as the engine observes it: its path relative to the
survey folder, its file name, and its filesystem metadata (`some size` when
`fs::metadata` succeeds with that byte length, `none` when unreadable). -/
structure RawImage where
  relpath : String
  filename : String
  meta : Option Nat
deriving DecidableEq

/-!
## Identity extraction (`extract_detected_id`, `extract_base_key`)
-/

/-- Embeds `extract_detected_id` (lib.rs 398-405): group 1 of the last
non-overlapping match of the survey-identity pattern against the path
string. -/
def extract_detected_id (re : String → List (Option String)) (path : String) : Option String :=
  ((re path).getLast?).bind id

/-- Embeds `extract_base_key` (lib.rs 407-413): group 1 of the last non-overlapping
match of the base-key pattern, upper-cased. -/
def extract_base_key (re : String → List (Option String)) (value : String) : Option String :=
  (((re value).getLast?).bind id).map toUpperStr

/-!
## Candidate classification and winner selection
(`classify_candidate`, `select_winner`, lib.rs 790-833)
-/

/-- Embeds `classify_candidate` (lib.rs 820-833). -/
def classify_candidate (rules : CompiledRules) (candidate : String) : String :=
  let lower := toLowerStr candidate
  if rules.indMatch lower then "IND"
  else if rules.secondary_tokens.any (fun token => containsSub lower token) then "SECONDARY"
  else "OTHER"

/-- The priority rank assigned in `select_winner` (lib.rs 799-803). -/
def priority_of (winner_type : String) : Nat :=
  if winner_type = "IND" then 1 else if winner_type = "SECONDARY" then 2 else 99

/-- The scored tuple `(priority, candidate.len(), candidate, winner_type)`
built in `select_winner` (lib.rs 795-806). -/
def score_of (rules : CompiledRules) (candidate : String) : Nat × Nat × String × String :=
  let winner_type := classify_candidate rules candidate
  (priority_of winner_type, candidate.utf8ByteSize, candidate, winner_type)

/-- The comparator of `select_winner` (lib.rs 808-812) as a less-or-equal
test: `a.0.cmp(&b.0).then_with(len).then_with(path)` is not `Greater`. -/
def scoredLe (a b : Nat × Nat × String × String) : Bool :=
  if a.1 < b.1 then true
  else if b.1 < a.1 then false
  else if a.2.1 < b.2.1 then true
  else if b.2.1 < a.2.1 then false
  else charListLeb a.2.2.1.toList b.2.2.1.toList

/-- Embeds `select_winner` (lib.rs 790-818): score every candidate, stable-sort
ascending by the comparator, return the first. -/
def select_winner (rules : CompiledRules) (candidates : List String) : Option CandidateWinner :=
  if candidates.isEmpty then none
  else
    let scored := candidates.map (score_of rules)
    let sorted := List.insertionSort (fun a b => scoredLe a b = true) scored
    sorted.head?.map (fun item => { relpath := item.2.2.1, winner_type := item.2.2.2 })

theorem scoredLe_refl (a : Nat × Nat × String × String) : scoredLe a a = true := by
  simp only [scoredLe, lt_irrefl, if_neg (lt_irrefl a.1), if_neg (lt_irrefl a.2.1)]
  exact charListLeb_refl _

theorem scoredLe_total (a b : Nat × Nat × String × String) :
    scoredLe a b = true ∨ scoredLe b a = true := by
  simp only [scoredLe]
  rcases Nat.lt_trichotomy a.1 b.1 with h | h | h
  · left; rw [if_pos h]
  · rcases Nat.lt_trichotomy a.2.1 b.2.1 with h2 | h2 | h2
    · left
      rw [h, if_neg (lt_irrefl b.1), if_neg (lt_irrefl b.1), if_pos h2]
    · rcases charListLeb_total a.2.2.1.toList b.2.2.1.toList with hc | hc
      · left
        rw [h, h2, if_neg (lt_irrefl b.1), if_neg (lt_irrefl b.1),
          if_neg (lt_irrefl b.2.1), if_neg (lt_irrefl b.2.1)]
        exact hc
      · right
        rw [h, h2, if_neg (lt_irrefl b.1), if_neg (lt_irrefl b.1),
          if_neg (lt_irrefl b.2.1), if_neg (lt_irrefl b.2.1)]
        exact hc
    · right
      rw [h, if_neg (lt_irrefl b.1), if_neg (lt_irrefl b.1), if_pos h2]
  · right; rw [if_pos h]

theorem scoredLe_trans (a b c : Nat × Nat × String × String) :
    scoredLe a b = true → scoredLe b c = true → scoredLe a c = true := by
  simp only [scoredLe]
  intro h1 h2
  rcases Nat.lt_trichotomy a.1 b.1 with hab | hab | hab
  · rcases Nat.lt_trichotomy b.1 c.1 with hbc | hbc | hbc
    · rw [if_pos (Nat.lt_trans hab hbc)]
    · rw [if_pos (hbc ▸ hab)]
    · rw [if_neg (Nat.lt_asymm hbc), if_pos hbc] at h2
      exact absurd h2 (by simp)
  · rcases Nat.lt_trichotomy b.1 c.1 with hbc | hbc | hbc
    · rw [if_pos (hab ▸ hbc)]
    · rw [hab] at h1
      rw [hbc] at h2
      rw [hab, hbc]
      rw [if_neg (lt_irrefl b.1), if_neg (lt_irrefl b.1)] at h1
      rw [if_neg (lt_irrefl c.1), if_neg (lt_irrefl c.1)] at h2 ⊢
      rcases Nat.lt_trichotomy a.2.1 b.2.1 with k1 | k1 | k1
      · rcases Nat.lt_trichotomy b.2.1 c.2.1 with k2 | k2 | k2
        · rw [if_pos (Nat.lt_trans k1 k2)]
        · rw [if_pos (k2 ▸ k1)]
        · rw [if_neg (Nat.lt_asymm k2), if_pos k2] at h2
          exact absurd h2 (by simp)
      · rcases Nat.lt_trichotomy b.2.1 c.2.1 with k2 | k2 | k2
        · rw [if_pos (k1 ▸ k2)]
        · rw [k1] at h1
          rw [k2] at h2
          rw [k1, k2]
          rw [if_neg (lt_irrefl b.2.1), if_neg (lt_irrefl b.2.1)] at h1
          rw [if_neg (lt_irrefl c.2.1), if_neg (lt_irrefl c.2.1)] at h2 ⊢
          exact charListLeb_trans _ _ _ h1 h2
        · rw [if_neg (Nat.lt_asymm k2), if_pos k2] at h2
          exact absurd h2 (by simp)
      · rw [if_neg (Nat.lt_asymm k1), if_pos k1] at h1
        exact absurd h1 (by simp)
    · rw [if_neg (Nat.lt_asymm hbc), if_pos hbc] at h2
      exact absurd h2 (by simp)
  · rw [if_neg (Nat.lt_asymm hab), if_pos hab] at h1
    exact absurd h1 (by simp)

instance : IsTotal (Nat × Nat × String × String) (fun a b => scoredLe a b = true) :=
  ⟨scoredLe_total⟩

instance : IsTrans (Nat × Nat × String × String) (fun a b => scoredLe a b = true) :=
  ⟨scoredLe_trans⟩

instance : IsRefl (Nat × Nat × String × String) (fun a b => scoredLe a b = true) :=
  ⟨scoredLe_refl⟩

/-- The first element of a stable ascending sort is below every list element:
what `scored.sort_by(..); scored.first()` guarantees in `select_winner`. -/
theorem head_insertionSort_le {α : Type} (r : α → α → Prop) [DecidableRel r]
    [IsTotal α r] [IsTrans α r] [IsRefl α r] (l : List α) (x : α)
    (hx : (List.insertionSort r l).head? = some x) : x ∈ l ∧ ∀ y ∈ l, r x y := by
  have hsorted := List.sorted_insertionSort r l
  have hperm := List.perm_insertionSort r l
  cases hs : List.insertionSort r l with
  | nil => rw [hs] at hx; exact absurd hx (by simp)
  | cons z zs =>
    rw [hs] at hx hsorted hperm
    simp only [List.head?] at hx
    have hzx : z = x := by injection hx
    subst hzx
    constructor
    · exact hperm.mem_iff.mp (List.mem_cons_self z zs)
    · intro y hy
      have : y ∈ z :: zs := hperm.mem_iff.mpr hy
      rcases List.mem_cons.mp this with h | h
      · subst h; exact refl_of r y
      · exact List.rel_of_sorted_cons hsorted y h

theorem score_of_path (rules : CompiledRules) (c : String) : (score_of rules c).2.2.1 = c := by
  unfold score_of
  rfl

theorem score_of_type (rules : CompiledRules) (c : String) :
    (score_of rules c).2.2.2 = classify_candidate rules c := by
  unfold score_of
  rfl

/-- On a non-empty list `select_winner` returns the scored-minimal candidate,
typed by `classify_candidate`. -/
theorem select_winner_min (rules : CompiledRules) (candidates : List String)
    (h : candidates ≠ []) :
    ∃ w, select_winner rules candidates = some w ∧ w.relpath ∈ candidates ∧
      w.winner_type = classify_candidate rules w.relpath ∧
      ∀ c ∈ candidates, scoredLe (score_of rules w.relpath) (score_of rules c) = true := by
  have hne : candidates.isEmpty = false := by
    cases candidates with
    | nil => exact absurd rfl h
    | cons a l => rfl
  unfold select_winner
  rw [hne]
  simp only [Bool.false_eq_true, if_false]
  set scored := candidates.map (score_of rules) with hscored
  set sorted := List.insertionSort (fun a b => scoredLe a b = true) scored with hsorted
  have hlen : sorted.length = scored.length :=
    (List.perm_insertionSort _ _).length_eq
  have hslen : scored.length ≠ 0 := by
    rw [hscored, List.length_map]
    intro h0
    exact h (List.eq_nil_of_length_eq_zero h0)
  cases hhead : sorted.head? with
  | none =>
    rw [List.head?_eq_none_iff] at hhead
    rw [hhead] at hlen
    exact absurd hlen.symm hslen
  | some item =>
    have hmin := head_insertionSort_le (fun a b => scoredLe a b = true) scored item hhead
    obtain ⟨hitem_mem, hitem_min⟩ := hmin
    obtain ⟨c0, hc0_mem, hc0⟩ := List.mem_map.mp hitem_mem
    have hpath : item.2.2.1 = c0 := by rw [← hc0, score_of_path]
    have htype : item.2.2.2 = classify_candidate rules c0 := by rw [← hc0, score_of_type]
    refine ⟨{ relpath := item.2.2.1, winner_type := item.2.2.2 }, ?_, ?_, ?_, ?_⟩
    · rfl
    · simpa [hpath] using hc0_mem
    · simp only [hpath, htype]
    · intro c hc
      have hm := hitem_min (score_of rules c) (List.mem_map_of_mem (score_of rules) hc)
      simp only [hpath, hc0]
      exact hm

/-!
## Concrete matcher for the priority pattern regex of the C1 example

The pattern compiled from `graded_priority_ind_regex` in the program's test
rules is `\bind` (applied to the lower-cased candidate path): a match is an
occurrence of `ind` whose preceding character, if any, is not a word
character.
-/

/-- Fuelled scan for `\bind`: at each position, the pattern matches when the
previous character is absent or not a word character and the text continues
with `ind`. -/
def scanIndAux : Nat → Option Char → List Char → Bool
  | 0, _, _ => false
  | _, _, [] => false
  | fuel + 1, prev, c :: rest =>
    (prev.all (fun p => !(isWordChar p)) && (c == 'i') && rest.take 2 == ['n', 'd'])
    || scanIndAux fuel (some c) rest

/-- Embeds `Regex::new("\\bind").is_match`. -/
def indMatchBInd (s : String) : Bool :=
  scanIndAux (s.length + 1) none s.toList

/-- The compiled rules of the winner-selection example: priority pattern
`\bind`, secondary token `best` (the survey-identity patterns are unused by
winner selection). -/
def c1Rules : CompiledRules where
  detected_re := fun _ => []
  base_re := fun _ => []
  imageIdCapture := fun _ => none
  indMatch := indMatchBInd
  secondary_tokens := ["best"]
  negative_tokens := []
  positive_tokens := ["*"]

/-- Characterization of `classify_candidate`: `IND` when the priority pattern
matches the lower-cased path, else `SECONDARY` when any secondary token occurs
as a substring, else `OTHER`. -/
theorem classify_candidate_cases (rules : CompiledRules) (c : String) :
    (classify_candidate rules c = "IND" ↔ rules.indMatch (toLowerStr c) = true) ∧
    (classify_candidate rules c = "SECONDARY" ↔
      rules.indMatch (toLowerStr c) = false ∧
        ∃ t ∈ rules.secondary_tokens, containsSub (toLowerStr c) t = true) ∧
    (classify_candidate rules c = "OTHER" ↔
      rules.indMatch (toLowerStr c) = false ∧
        ∀ t ∈ rules.secondary_tokens, containsSub (toLowerStr c) t = false) := by
  simp only [classify_candidate]
  cases hind : rules.indMatch (toLowerStr c) with
  | true =>
    rw [if_pos rfl]
    refine ⟨iff_of_true rfl rfl, iff_of_false (by decide) ?_, iff_of_false (by decide) ?_⟩
    · rintro ⟨h, -⟩
      exact absurd h (by decide)
    · rintro ⟨h, -⟩
      exact absurd h (by decide)
  | false =>
    rw [if_neg (by decide)]
    cases hsec : rules.secondary_tokens.any (fun token => containsSub (toLowerStr c) token) with
    | true =>
      rw [if_pos rfl]
      rw [List.any_eq_true] at hsec
      obtain ⟨t, ht, hct⟩ := hsec
      refine ⟨iff_of_false (by decide) (by decide), iff_of_true rfl ⟨rfl, t, ht, hct⟩,
        iff_of_false (by decide) ?_⟩
      rintro ⟨-, hall⟩
      have := hall t ht
      rw [hct] at this
      exact absurd this (by decide)
    | false =>
      rw [if_neg (by decide)]
      rw [List.any_eq_false] at hsec
      refine ⟨iff_of_false (by decide) (by decide), iff_of_false (by decide) ?_,
        iff_of_true rfl ⟨rfl, ?_⟩⟩
      · rintro ⟨-, t, ht, hct⟩
        have := hsec t ht
        rw [hct] at this
        exact absurd this (by simp)
      · intro t ht
        have := hsec t ht
        cases hc : containsSub (toLowerStr c) t with
        | true => exact absurd hc this
        | false => rfl

/-- C1: for every non-empty candidate list, each candidate is classified `IND`
when the priority pattern matches its lower-cased path, else `SECONDARY` when
it contains a secondary token as a substring, else `OTHER`; the winner is a
candidate minimal under the ascending lexicographic order on (priority rank
with IND=1, SECONDARY=2, OTHER=99; then path byte length; then path), so IND
beats SECONDARY beats OTHER with ties broken by shortest then smallest path;
and on candidates `["alpha/best/image.jpg", "beta/ind/image.jpg",
"gamma/other/image.jpg"]` with secondary token `best` and priority pattern
`\bind` the winner is `beta/ind/image.jpg` with type `IND`. -/
theorem c1_winner_selection :
    (∀ (rules : CompiledRules) (c : String),
      (classify_candidate rules c = "IND" ↔ rules.indMatch (toLowerStr c) = true) ∧
      (classify_candidate rules c = "SECONDARY" ↔
        rules.indMatch (toLowerStr c) = false ∧
          ∃ t ∈ rules.secondary_tokens, containsSub (toLowerStr c) t = true) ∧
      (classify_candidate rules c = "OTHER" ↔
        rules.indMatch (toLowerStr c) = false ∧
          ∀ t ∈ rules.secondary_tokens, containsSub (toLowerStr c) t = false)) ∧
    (∀ (rules : CompiledRules) (candidates : List String), candidates ≠ [] →
      ∃ w, select_winner rules candidates = some w ∧ w.relpath ∈ candidates ∧
        w.winner_type = classify_candidate rules w.relpath ∧
        ∀ c ∈ candidates, scoredLe (score_of rules w.relpath) (score_of rules c) = true) ∧
    select_winner c1Rules
      ["alpha/best/image.jpg", "beta/ind/image.jpg", "gamma/other/image.jpg"]
      = some { relpath := "beta/ind/image.jpg", winner_type := "IND" } :=
  ⟨classify_candidate_cases, select_winner_min, by decide⟩

/-- Witness for `c1_winner_selection` at the example candidate list. -/
theorem c1_winner_selection_witness :
    ∃ w, select_winner c1Rules
        ["alpha/best/image.jpg", "beta/ind/image.jpg", "gamma/other/image.jpg"] = some w ∧
      w.relpath ∈ ["alpha/best/image.jpg", "beta/ind/image.jpg", "gamma/other/image.jpg"] ∧
      w.winner_type = classify_candidate c1Rules w.relpath ∧
      ∀ c ∈ ["alpha/best/image.jpg", "beta/ind/image.jpg", "gamma/other/image.jpg"],
        scoredLe (score_of c1Rules w.relpath) (score_of c1Rules c) = true :=
  c1_winner_selection.2.1 c1Rules
    ["alpha/best/image.jpg", "beta/ind/image.jpg", "gamma/other/image.jpg"] (by decide)

/-!
## Concrete matchers for the survey-identity patterns of the C4 example

`survey_id_regex_detected` is `\b(\d{8}_[A-Z]{2}(?:_[A-Z]{2})?)\b` and
`survey_id_regex_base` is `(?i)\b(\d{8}_[A-Z]{2})(?:_[A-Z]{2})?\b` (the
program's default/test rules).  Both start with a word character (a digit), so
the leading `\b` holds exactly when the previous character is absent or not a
word character; the optional `_XX` group is greedy, backtracking on the
trailing `\b`.
-/

/-- Trailing `\b`: the next character is absent or not a word character. -/
def boundaryAfter : List Char → Bool
  | [] => true
  | c :: _ => !(isWordChar c)

/-- Attempt `\b(\d{8}_[A-Z]{2}(?:_[A-Z]{2})?)\b` at the current position (the
scanner has established the leading boundary).  Returns
`(group 1, whole match, remaining input)`. -/
def matchDetectedHere (sub : List Char) : Option (List Char × List Char × List Char) :=
  let ds := sub.take 8
  if ds.length == 8 && ds.all Char.isDigit then
    match sub.drop 8 with
    | '_' :: a :: b :: rest =>
      if a.isUpper && b.isUpper then
        let core := ds ++ ['_', a, b]
        match rest with
        | '_' :: c :: d :: rest2 =>
          if c.isUpper && d.isUpper && boundaryAfter rest2 then
            some (core ++ ['_', c, d], core ++ ['_', c, d], rest2)
          else if boundaryAfter rest then some (core, core, rest) else none
        | _ => if boundaryAfter rest then some (core, core, rest) else none
      else none
    | _ => none
  else none

/-- Attempt `(?i)\b(\d{8}_[A-Z]{2})(?:_[A-Z]{2})?\b` at the current position:
group 1 covers only the first eleven characters, `(?i)` lets the letter
classes match either case. -/
def matchBaseHere (sub : List Char) : Option (List Char × List Char × List Char) :=
  let ds := sub.take 8
  if ds.length == 8 && ds.all Char.isDigit then
    match sub.drop 8 with
    | '_' :: a :: b :: rest =>
      if a.isAlpha && b.isAlpha then
        let core := ds ++ ['_', a, b]
        match rest with
        | '_' :: c :: d :: rest2 =>
          if c.isAlpha && d.isAlpha && boundaryAfter rest2 then
            some (core, core ++ ['_', c, d], rest2)
          else if boundaryAfter rest then some (core, core, rest) else none
        | _ => if boundaryAfter rest then some (core, core, rest) else none
      else none
    | _ => none
  else none

/-- Left-to-right scan producing the group-1 captures of all non-overlapping
matches (the `captures_iter` semantics): at each position whose previous
character is absent or not a word character, attempt the pattern; on success
record the capture and resume after the match.  The fuel is one more than the
input length (every step consumes at least one character). -/
def scanCaptures (matchHere : List Char → Option (List Char × List Char × List Char)) :
    Nat → Option Char → List Char → List String
  | 0, _, _ => []
  | _, _, [] => []
  | fuel + 1, prev, c :: rest =>
    if prev.all (fun p => !(isWordChar p)) then
      match matchHere (c :: rest) with
      | some (cap, matched, rest2) =>
        String.mk cap :: scanCaptures matchHere fuel matched.getLast? rest2
      | none => scanCaptures matchHere fuel (some c) rest
    else scanCaptures matchHere fuel (some c) rest

/-- Embeds `Regex::new("\\b(\\d{8}_[A-Z]{2}(?:_[A-Z]{2})?)\\b")` as the list of
group-1 captures of `captures_iter` (group 1 participates in every match). -/
def surveyDetectedCaptures (s : String) : List (Option String) :=
  (scanCaptures matchDetectedHere (s.length + 1) none s.toList).map some

/-- Embeds `Regex::new("(?i)\\b(\\d{8}_[A-Z]{2})(?:_[A-Z]{2})?\\b")` as the list of
group-1 captures of `captures_iter`. -/
def surveyBaseCaptures (s : String) : List (Option String) :=
  (scanCaptures matchBaseHere (s.length + 1) none s.toList).map some

/-- C4: identity detection is last-match-wins — the detected identity is the
first capture group of the final non-overlapping match (none when there is no
match) and the base key is the upper-cased first capture group of the base
pattern's last match; on pattern `\b(\d{8}_[A-Z]{2}(?:_[A-Z]{2})?)\b` against
`/data/20250101_AB_CD/some` the detected identity is `20250101_AB_CD` and the
base key is `20250101_AB`. -/
theorem c4_last_match_wins :
    (∀ (re : String → List (Option String)) (s : String),
      (re s = [] → extract_detected_id re s = none) ∧
      ∀ pre cap, re s = pre ++ [some cap] → extract_detected_id re s = some cap) ∧
    (∀ (re : String → List (Option String)) (v : String) (pre : List (Option String))
      (cap : String), re v = pre ++ [some cap] →
        extract_base_key re v = some (toUpperStr cap)) ∧
    extract_detected_id surveyDetectedCaptures "/data/20250101_AB_CD/some"
      = some "20250101_AB_CD" ∧
    extract_base_key surveyBaseCaptures "20250101_AB_CD" = some "20250101_AB" := by
  refine ⟨fun re s => ⟨fun h => ?_, fun pre cap h => ?_⟩, fun re v pre cap h => ?_, ?_, ?_⟩
  · unfold extract_detected_id
    rw [h]
    rfl
  · unfold extract_detected_id
    rw [h, List.getLast?_append_cons]
    rfl
  · unfold extract_base_key
    rw [h, List.getLast?_append_cons]
    rfl
  · decide
  · decide

/-- Witness for `c4_last_match_wins`: its last-match clauses applied to the
single-match capture lists of the concrete example. -/
theorem c4_last_match_wins_witness :
    extract_detected_id surveyDetectedCaptures "/data/20250101_AB_CD/some"
        = some "20250101_AB_CD" ∧
      extract_base_key surveyBaseCaptures "20250101_AB_CD" = some (toUpperStr "20250101_AB") :=
  ⟨(c4_last_match_wins.1 surveyDetectedCaptures "/data/20250101_AB_CD/some").2
      [] "20250101_AB_CD" (by decide),
    c4_last_match_wins.2.1 surveyBaseCaptures "20250101_AB_CD" [] "20250101_AB"
      (by decide)⟩

/-!
## File identity resolution (`compute_file_id`, lib.rs 768-788) and
row construction (`process_pair`, lib.rs 643-726)
-/

/-- Rust `Path::file_stem` on a file name: the portion before the final `.`,
except that a name with no `.`, or whose only `.` is leading, is its own
stem. -/
def fileStem (filename : String) : String :=
  let cs := filename.toList
  match cs.reverse.findIdx? (fun c => c == '.') with
  | none => filename
  | some i => if i = cs.length - 1 then filename else String.mk (cs.take (cs.length - 1 - i))

/-- Embeds `compute_file_id` (lib.rs 768-788): the identity key and the ambiguity
flag for a file, given its name and its filesystem metadata (`some size` when
readable). -/
def compute_file_id (rules : CompiledRules) (filename : String) (meta : Option Nat) :
    String × Bool :=
  let stem := fileStem filename
  match rules.imageIdCapture stem with
  | some cap => (toLowerStr cap, false)
  | none =>
    let filename_lower := toLowerStr filename
    match meta with
    | some size => (filename_lower ++ "|" ++ toString size, false)
    | none => (filename_lower, true)

/-- Embeds `any_token_match` (lib.rs 835-846). -/
def any_token_match (candidates tokens : List String) : Bool :=
  if tokens.isEmpty then false
  else if tokens.any (fun token => token == "*") then true
  else candidates.any (fun candidate =>
    let lower := toLowerStr candidate
    tokens.any (fun token => containsSub lower token))

/-- The loop body of `process_pair` (lib.rs 657-720) for one raw image:
its identity key from `compute_file_id`, candidates from the graded map, the
winner from `select_winner`, and the retain flag from the token rules; also
returns the ambiguity flag. -/
def build_row (rules : CompiledRules) (base_key : String)
    (raw_detected graded_detected : Option String) (gmap : String → List String)
    (img : RawImage) : CsvRow × Bool :=
  let fid := compute_file_id rules img.filename img.meta
  let candidates := gmap fid.1
  let winner := select_winner rules candidates
  let dgw :=
    if candidates.isEmpty then (0, "RAW", "RAW")
    else
      let has_negative := any_token_match candidates rules.negative_tokens
      let positive_ok :=
        if rules.positive_tokens.isEmpty || rules.positive_tokens.any (fun t => t == "*") then
          true
        else any_token_match candidates rules.positive_tokens
      let dolphin : Nat := if !has_negative && positive_ok then 1 else 0
      (dolphin,
        (winner.map (fun w => w.relpath)).getD "RAW",
        (winner.map (fun w => w.winner_type)).getD "RAW")
  ({ survey_id_base := base_key
     raw_relpath := img.relpath
     filename := img.filename
     dolphin := dgw.1
     graded_relpath := dgw.2.1
     graded_hits := candidates.length
     graded_winner_type := dgw.2.2
     survey_id_raw_detected := raw_detected
     survey_id_graded_detected := graded_detected }, fid.2)

/-- Embeds `process_pair` (lib.rs 643-726): one row per raw image in order, the
ambiguity count starting from the graded-map warnings and incremented per
ambiguous raw image. -/
def process_pair (rules : CompiledRules) (base_key : String)
    (raw_detected graded_detected : Option String) (gmap : String → List String)
    (gradedWarnings : Nat) (imgs : List RawImage) : PairResult :=
  imgs.foldl
    (fun acc img =>
      let rb := build_row rules base_key raw_detected graded_detected gmap img
      { rows := acc.rows ++ [rb.1],
        ambiguity_warnings := acc.ambiguity_warnings + (if rb.2 then 1 else 0) })
    { rows := [], ambiguity_warnings := gradedWarnings }

theorem process_pair_foldl (rules : CompiledRules) (base_key : String)
    (raw_detected graded_detected : Option String) (gmap : String → List String) :
    ∀ (imgs : List RawImage) (rs : List CsvRow) (n : Nat),
      List.foldl
        (fun acc img =>
          let rb := build_row rules base_key raw_detected graded_detected gmap img
          { rows := acc.rows ++ [rb.1],
            ambiguity_warnings := acc.ambiguity_warnings + (if rb.2 then 1 else 0) })
        (PairResult.mk rs n) imgs
      = PairResult.mk
          (rs ++ imgs.map
            (fun img => (build_row rules base_key raw_detected graded_detected gmap img).1))
          (n + imgs.countP
            (fun img => (build_row rules base_key raw_detected graded_detected gmap img).2)) := by
  intro imgs
  induction imgs with
  | nil => intro rs n; simp
  | cons img rest ih =>
    intro rs n
    rw [List.foldl_cons]
    refine (ih (rs ++ [(build_row rules base_key raw_detected graded_detected gmap img).1])
      (n + (if (build_row rules base_key raw_detected graded_detected gmap img).2
        then 1 else 0))).trans ?_
    simp only [List.map_cons, List.countP_cons, PairResult.mk.injEq, List.append_assoc,
      List.singleton_append]
    refine ⟨trivial, ?_⟩
    cases hb : (build_row rules base_key raw_detected graded_detected gmap img).2 <;>
      simp [hb] <;> omega

theorem process_pair_eq (rules : CompiledRules) (base_key : String)
    (raw_detected graded_detected : Option String) (gmap : String → List String)
    (gradedWarnings : Nat) (imgs : List RawImage) :
    process_pair rules base_key raw_detected graded_detected gmap gradedWarnings imgs
      = PairResult.mk
          (imgs.map
            (fun img => (build_row rules base_key raw_detected graded_detected gmap img).1))
          (gradedWarnings + imgs.countP
            (fun img => (build_row rules base_key raw_detected graded_detected gmap img).2)) := by
  unfold process_pair
  exact (process_pair_foldl rules base_key raw_detected graded_detected gmap imgs []
    gradedWarnings).trans (by simp)

/-- The test `any_token_match` is true exactly when the token list holds the wildcard
`*` or some candidate's lower-cased path contains some token. -/
theorem any_token_match_iff (candidates tokens : List String) :
    any_token_match candidates tokens = true ↔
      ("*" ∈ tokens ∨
        ∃ c ∈ candidates, ∃ t ∈ tokens, containsSub (toLowerStr c) t = true) := by
  unfold any_token_match
  cases tokens with
  | nil => simp
  | cons t0 ts =>
    rw [if_neg (by simp)]
    cases hstar : (t0 :: ts).any (fun token => token == "*") with
    | true =>
      rw [if_pos rfl]
      rw [List.any_eq_true] at hstar
      obtain ⟨t, ht, hts⟩ := hstar
      have ht' : t = "*" := by simpa using hts
      exact iff_of_true rfl (Or.inl (ht' ▸ ht))
    | false =>
      rw [if_neg (by simp)]
      constructor
      · intro h
        rw [List.any_eq_true] at h
        obtain ⟨c, hc, hcs⟩ := h
        simp only [List.any_eq_true] at hcs
        obtain ⟨t, ht, hct⟩ := hcs
        exact Or.inr ⟨c, hc, t, ht, hct⟩
      · rintro (hstar2 | ⟨c, hc, t, ht, hct⟩)
        · rw [List.any_eq_false] at hstar
          have := hstar "*" hstar2
          simp at this
        · rw [List.any_eq_true]
          refine ⟨c, hc, ?_⟩
          simp only [List.any_eq_true]
          exact ⟨t, ht, hct⟩

/-- The `positive_ok` test of `process_pair` (lib.rs 668-674) holds exactly
when the positive list is empty, holds the wildcard, or matches some
candidate. -/
theorem positive_ok_iff (candidates tokens : List String) :
    (if tokens.isEmpty || tokens.any (fun t => t == "*") then true
      else any_token_match candidates tokens) = true ↔
      (tokens = [] ∨ "*" ∈ tokens ∨
        ∃ c ∈ candidates, ∃ t ∈ tokens, containsSub (toLowerStr c) t = true) := by
  cases hcond : tokens.isEmpty || tokens.any (fun t => t == "*") with
  | true =>
    rw [if_pos rfl]
    refine iff_of_true rfl ?_
    rcases Bool.or_eq_true_iff.mp hcond with h | h
    · exact Or.inl (List.isEmpty_iff.mp h)
    · rw [List.any_eq_true] at h
      obtain ⟨t, ht, hts⟩ := h
      have ht' : t = "*" := by simpa using hts
      exact Or.inr (Or.inl (ht' ▸ ht))
  | false =>
    rw [if_neg (by simp)]
    have h1 : tokens.isEmpty = false ∧ tokens.any (fun t => t == "*") = false := by
      simpa using hcond
    rw [any_token_match_iff]
    constructor
    · rintro (hstar | hex)
      · exact Or.inr (Or.inl hstar)
      · exact Or.inr (Or.inr hex)
    · rintro (hnil | hstar | hex)
      · rw [hnil] at h1
        simp at h1
      · exact Or.inl hstar
      · exact Or.inr hex

/-- On a raw image with at least one candidate, the retain flag of the built
row is the `!has_negative && positive_ok` test of lib.rs 664-691. -/
theorem build_row_dolphin_nonempty (rules : CompiledRules) (base_key : String)
    (rd gd : Option String) (gmap : String → List String) (img : RawImage)
    (h : gmap (compute_file_id rules img.filename img.meta).1 ≠ []) :
    (build_row rules base_key rd gd gmap img).1.dolphin
      = if (!(any_token_match (gmap (compute_file_id rules img.filename img.meta).1)
              rules.negative_tokens)
            && (if rules.positive_tokens.isEmpty
                  || rules.positive_tokens.any (fun t => t == "*") then true
                else any_token_match (gmap (compute_file_id rules img.filename img.meta).1)
                  rules.positive_tokens)) = true
        then 1 else 0 := by
  have hne : (gmap (compute_file_id rules img.filename img.meta).1).isEmpty = false := by
    cases hc : gmap (compute_file_id rules img.filename img.meta).1 with
    | nil => exact absurd hc h
    | cons a l => rfl
  simp only [build_row, hne, Bool.false_eq_true, if_false]

/-- C2: with at least one graded candidate, the retain (dolphin) flag is 1 iff
no candidate matches a negative token (with `*` counting as always-matching)
and the positive list is empty, holds `*`, or matches some candidate. -/
theorem c2_retain_flag (rules : CompiledRules) (base_key : String)
    (rd gd : Option String) (gmap : String → List String) (img : RawImage)
    (h : gmap (compute_file_id rules img.filename img.meta).1 ≠ []) :
    (build_row rules base_key rd gd gmap img).1.dolphin = 1 ↔
      ¬("*" ∈ rules.negative_tokens ∨
          ∃ c ∈ gmap (compute_file_id rules img.filename img.meta).1,
            ∃ t ∈ rules.negative_tokens, containsSub (toLowerStr c) t = true) ∧
        (rules.positive_tokens = [] ∨ "*" ∈ rules.positive_tokens ∨
          ∃ c ∈ gmap (compute_file_id rules img.filename img.meta).1,
            ∃ t ∈ rules.positive_tokens, containsSub (toLowerStr c) t = true) := by
  rw [build_row_dolphin_nonempty rules base_key rd gd gmap img h]
  constructor
  · intro h1
    by_cases hc : (!(any_token_match (gmap (compute_file_id rules img.filename img.meta).1)
          rules.negative_tokens)
        && (if rules.positive_tokens.isEmpty
              || rules.positive_tokens.any (fun t => t == "*") then true
            else any_token_match (gmap (compute_file_id rules img.filename img.meta).1)
              rules.positive_tokens)) = true
    · rw [Bool.and_eq_true, Bool.not_eq_true'] at hc
      refine ⟨?_, (positive_ok_iff _ _).mp hc.2⟩
      intro hneg
      rw [← any_token_match_iff] at hneg
      rw [hneg] at hc
      exact absurd hc.1 (by simp)
    · rw [if_neg hc] at h1
      exact absurd h1 (by simp)
  · rintro ⟨hneg, hpos⟩
    have hnegf : any_token_match (gmap (compute_file_id rules img.filename img.meta).1)
        rules.negative_tokens = false := by
      cases hn : any_token_match (gmap (compute_file_id rules img.filename img.meta).1)
          rules.negative_tokens with
      | true => exact absurd ((any_token_match_iff _ _).mp hn) hneg
      | false => rfl
    have hposc := (positive_ok_iff (gmap (compute_file_id rules img.filename img.meta).1)
      rules.positive_tokens).mpr hpos
    rw [if_pos (by rw [Bool.and_eq_true, Bool.not_eq_true']; exact ⟨hnegf, hposc⟩)]

/-- Witness for `c2_retain_flag`: one candidate, empty negative list, wildcard
positive list — the flag is 1 and the right-hand side holds. -/
theorem c2_retain_flag_witness :
    (build_row c1Rules "K" none none (fun _ => ["graded/a.jpg"])
        { relpath := "a.jpg", filename := "a.jpg", meta := none }).1.dolphin = 1 ↔
      ¬("*" ∈ c1Rules.negative_tokens ∨
          ∃ c ∈ (fun _ => ["graded/a.jpg"])
              (compute_file_id c1Rules "a.jpg" none).1,
            ∃ t ∈ c1Rules.negative_tokens, containsSub (toLowerStr c) t = true) ∧
        (c1Rules.positive_tokens = [] ∨ "*" ∈ c1Rules.positive_tokens ∨
          ∃ c ∈ (fun _ => ["graded/a.jpg"])
              (compute_file_id c1Rules "a.jpg" none).1,
            ∃ t ∈ c1Rules.positive_tokens, containsSub (toLowerStr c) t = true) :=
  c2_retain_flag c1Rules "K" none none (fun _ => ["graded/a.jpg"])
    { relpath := "a.jpg", filename := "a.jpg", meta := none } (by decide)

/-- C3: the identity key is the lower-cased group-1 capture of the
identity-bearing-prefix pattern on the extension-stripped stem when that
pattern matches (ambiguity false); otherwise the lower-cased filename joined
with `|` and the byte size when metadata is readable (ambiguity false);
otherwise the lower-cased filename alone with ambiguity true — and an
ambiguous file only increments the pair's ambiguity count while a row is
still produced for every image. -/
theorem c3_file_identity :
    (∀ (rules : CompiledRules) (filename : String) (meta : Option Nat),
      (∀ cap, rules.imageIdCapture (fileStem filename) = some cap →
        compute_file_id rules filename meta = (toLowerStr cap, false)) ∧
      (rules.imageIdCapture (fileStem filename) = none →
        (∀ size, meta = some size →
          compute_file_id rules filename meta
            = (toLowerStr filename ++ "|" ++ toString size, false)) ∧
        (meta = none → compute_file_id rules filename meta = (toLowerStr filename, true)))) ∧
    (∀ (rules : CompiledRules) (base_key : String) (rd gd : Option String)
      (gmap : String → List String) (gradedWarnings : Nat) (imgs : List RawImage),
      (process_pair rules base_key rd gd gmap gradedWarnings imgs).ambiguity_warnings
        = gradedWarnings
          + imgs.countP (fun img => (compute_file_id rules img.filename img.meta).2) ∧
      (process_pair rules base_key rd gd gmap gradedWarnings imgs).rows.length
        = imgs.length) := by
  constructor
  · intro rules filename meta
    constructor
    · intro cap hcap
      simp only [compute_file_id, hcap]
    · intro hnone
      constructor
      · intro size hsize
        simp only [compute_file_id, hnone, hsize]
      · intro hnone2
        simp only [compute_file_id, hnone, hnone2]
  · intro rules base_key rd gd gmap gradedWarnings imgs
    rw [process_pair_eq]
    constructor
    · have : (fun img => (build_row rules base_key rd gd gmap img).2)
          = fun img => (compute_file_id rules img.filename img.meta).2 := by
        funext img
        simp only [build_row]
      simp only [this]
    · simp

/-- Witness for `c3_file_identity`: a file whose stem the pattern misses and
whose metadata is unreadable gets the lower-cased filename as key with the
ambiguity flag set. -/
theorem c3_file_identity_witness :
    compute_file_id c1Rules "Sample.JPG" none = (toLowerStr "Sample.JPG", true) :=
  ((c3_file_identity.1 c1Rules "Sample.JPG" none).2 rfl).2 rfl

/-- C7: a raw image whose identity key has no graded candidates yields a row
with retain flag 0, the literal `RAW` sentinel as winning path and winner
type, and candidate count 0. -/
theorem c7_no_candidate_row (rules : CompiledRules) (base_key : String)
    (rd gd : Option String) (gmap : String → List String) (img : RawImage)
    (h : gmap (compute_file_id rules img.filename img.meta).1 = []) :
    (build_row rules base_key rd gd gmap img).1.dolphin = 0 ∧
    (build_row rules base_key rd gd gmap img).1.graded_relpath = "RAW" ∧
    (build_row rules base_key rd gd gmap img).1.graded_winner_type = "RAW" ∧
    (build_row rules base_key rd gd gmap img).1.graded_hits = 0 := by
  simp only [build_row, h]
  exact ⟨rfl, rfl, rfl, rfl⟩

/-- Witness for `c7_no_candidate_row` on an empty graded map. -/
theorem c7_no_candidate_row_witness :
    (build_row c1Rules "K" none none (fun _ => [])
        { relpath := "a.jpg", filename := "a.jpg", meta := none }).1.dolphin = 0 ∧
    (build_row c1Rules "K" none none (fun _ => [])
        { relpath := "a.jpg", filename := "a.jpg", meta := none }).1.graded_relpath = "RAW" ∧
    (build_row c1Rules "K" none none (fun _ => [])
        { relpath := "a.jpg", filename := "a.jpg", meta := none }).1.graded_winner_type
      = "RAW" ∧
    (build_row c1Rules "K" none none (fun _ => [])
        { relpath := "a.jpg", filename := "a.jpg", meta := none }).1.graded_hits = 0 :=
  c7_no_candidate_row c1Rules "K" none none (fun _ => [])
    { relpath := "a.jpg", filename := "a.jpg", meta := none } rfl

/-!
## Pair reconciliation (`select_unique`, `scan_roots`, lib.rs 415-584)

The `HashMap`s of `discover_surveys` are embedded as total functions
defaulting to `[]` (`map.get(..).cloned().unwrap_or_default()`); the unordered
`HashSet` union of base keys is an explicit enumeration parameter `baseKeys`.
-/

/-- Embeds `select_unique` (lib.rs 560-584). -/
def select_unique (base_key : String) (list : List SurveyFolder) (problem_type : String) :
    Option SurveyFolder × Option ProblemItem :=
  if list.length ≤ 1 then (list.head?, none)
  else
    (none,
      some { survey_id_base := base_key
             survey_id_detected := list.head?.bind (fun folder => folder.detected_id)
             raw_path := none
             graded_path := none
             problem_type := problem_type
             details := some (String.intercalate "; "
               (list.map (fun folder => folder.path))) })

/-- The per-base-key body of the `scan_roots` loop (lib.rs 431-548): resolve
both sides with `select_unique`, push problems in code order (duplicate raw,
duplicate graded, raw missing, graded missing), and set the status, which ends
up `PROBLEM` when any of the four conditions fired. -/
def scan_key (rawMap gradedMap : String → List SurveyFolder) (base_key : String) :
    ScanEntry × List ProblemItem :=
  let raw_list := rawMap base_key
  let graded_list := gradedMap base_key
  let raw_missing := raw_list.isEmpty
  let graded_missing := graded_list.isEmpty
  let rawSel := select_unique base_key raw_list "DUPLICATE_RAW"
  let gradedSel := select_unique base_key graded_list "DUPLICATE_GRADED"
  let raw := rawSel.1
  let raw_problem := rawSel.2
  let graded := gradedSel.1
  let graded_problem := gradedSel.2
  let dupProblems := raw_problem.toList ++ graded_problem.toList
  let missingRawProblems : List ProblemItem :=
    if raw_missing then
      [{ survey_id_base := base_key
         survey_id_detected := graded.bind (fun folder => folder.detected_id)
         raw_path := none
         graded_path := graded.map (fun folder => folder.path)
         problem_type := "RAW_MISSING"
         details := none }]
    else []
  let missingGradedProblems : List ProblemItem :=
    if graded_missing then
      [{ survey_id_base := base_key
         survey_id_detected := raw.bind (fun folder => folder.detected_id)
         raw_path := raw.map (fun folder => folder.path)
         graded_path := none
         problem_type := "GRADED_MISSING"
         details := none }]
    else []
  let status :=
    if raw_problem.isSome || graded_problem.isSome then "PROBLEM"
    else if graded_missing then "PROBLEM"
    else if raw_missing then "PROBLEM"
    else "OK"
  ({ base_key := base_key, raw := raw, graded := graded, status := status },
    dupProblems ++ missingRawProblems ++ missingGradedProblems)

/-- Entry comparison used by `entries.sort_by(|a, b| a.base_key.cmp(&b.base_key))`
(lib.rs 551). -/
def entryLe (a b : ScanEntry) : Prop :=
  charListLeb a.base_key.toList b.base_key.toList = true

instance : DecidableRel entryLe := fun a b => by
  unfold entryLe
  infer_instance

instance : IsTotal ScanEntry entryLe :=
  ⟨fun a b => charListLeb_total a.base_key.toList b.base_key.toList⟩

instance : IsTrans ScanEntry entryLe :=
  ⟨fun a b c => charListLeb_trans a.base_key.toList b.base_key.toList c.base_key.toList⟩

/-- Embeds `scan_roots` (lib.rs 415-558), with the preview extras (image counts)
omitted: one entry and a batch of problems per enumerated base key; the entry
list is sorted by base key at the end (lib.rs 551), the problems list is
returned as accumulated. -/
def scan_roots (rawMap gradedMap : String → List SurveyFolder) (baseKeys : List String) :
    ScanResult :=
  let pairs := baseKeys.map (scan_key rawMap gradedMap)
  { entries := List.insertionSort entryLe (pairs.map (fun p => p.1)),
    problems := pairs.flatMap (fun p => p.2) }

theorem select_unique_le_one (base_key : String) (list : List SurveyFolder)
    (problem_type : String) (h : list.length ≤ 1) :
    select_unique base_key list problem_type = (list.head?, none) := by
  unfold select_unique
  rw [if_pos h]

theorem select_unique_ge_two (base_key : String) (list : List SurveyFolder)
    (problem_type : String) (h : 2 ≤ list.length) :
    select_unique base_key list problem_type
      = (none,
        some { survey_id_base := base_key
               survey_id_detected := list.head?.bind (fun folder => folder.detected_id)
               raw_path := none
               graded_path := none
               problem_type := problem_type
               details := some (String.intercalate "; "
                 (list.map (fun folder => folder.path))) }) := by
  unfold select_unique
  rw [if_neg (by omega)]

theorem select_unique_isSome (base_key : String) (list : List SurveyFolder)
    (problem_type : String) :
    (select_unique base_key list problem_type).2.isSome = true ↔ 2 ≤ list.length := by
  by_cases h : list.length ≤ 1
  · rw [select_unique_le_one base_key list problem_type h]
    exact iff_of_false (by simp) (by omega)
  · rw [select_unique_ge_two base_key list problem_type (by omega)]
    exact iff_of_true rfl (by omega)

theorem scan_key_base (rawMap gradedMap : String → List SurveyFolder) (k : String) :
    (scan_key rawMap gradedMap k).1.base_key = k := rfl

/-- The status computed by the `scan_roots` loop is `OK` exactly when both
sides hold exactly one folder. -/
theorem scan_key_status_iff (rawMap gradedMap : String → List SurveyFolder) (k : String) :
    (scan_key rawMap gradedMap k).1.status = "OK" ↔
      (rawMap k).length = 1 ∧ (gradedMap k).length = 1 := by
  have hstat : (scan_key rawMap gradedMap k).1.status
      = (if (select_unique k (rawMap k) "DUPLICATE_RAW").2.isSome
            || (select_unique k (gradedMap k) "DUPLICATE_GRADED").2.isSome then "PROBLEM"
        else if (gradedMap k).isEmpty then "PROBLEM"
        else if (rawMap k).isEmpty then "PROBLEM"
        else "OK") := rfl
  rw [hstat]
  by_cases hdup : ((select_unique k (rawMap k) "DUPLICATE_RAW").2.isSome
      || (select_unique k (gradedMap k) "DUPLICATE_GRADED").2.isSome) = true
  · rw [if_pos hdup]
    refine iff_of_false (by decide) ?_
    rintro ⟨h1, h2⟩
    rcases Bool.or_eq_true_iff.mp hdup with h | h
    · have := (select_unique_isSome k (rawMap k) "DUPLICATE_RAW").mp h
      omega
    · have := (select_unique_isSome k (gradedMap k) "DUPLICATE_GRADED").mp h
      omega
  · rw [if_neg hdup]
    by_cases hg : (gradedMap k).isEmpty = true
    · rw [if_pos hg]
      refine iff_of_false (by decide) ?_
      rintro ⟨h1, h2⟩
      rw [List.isEmpty_iff] at hg
      rw [hg] at h2
      simp at h2
    · rw [if_neg hg]
      by_cases hr : (rawMap k).isEmpty = true
      · rw [if_pos hr]
        refine iff_of_false (by decide) ?_
        rintro ⟨h1, h2⟩
        rw [List.isEmpty_iff] at hr
        rw [hr] at h1
        simp at h1
      · rw [if_neg hr]
        refine iff_of_true rfl ?_
        have hrd : ¬ 2 ≤ (rawMap k).length := fun hc =>
          hdup (Bool.or_eq_true_iff.mpr (Or.inl
            ((select_unique_isSome k (rawMap k) "DUPLICATE_RAW").mpr hc)))
        have hgd : ¬ 2 ≤ (gradedMap k).length := fun hc =>
          hdup (Bool.or_eq_true_iff.mpr (Or.inr
            ((select_unique_isSome k (gradedMap k) "DUPLICATE_GRADED").mpr hc)))
        have hrn : (rawMap k).length ≠ 0 := fun hc =>
          hr (by rw [List.eq_nil_of_length_eq_zero hc]; rfl)
        have hgn : (gradedMap k).length ≠ 0 := fun hc =>
          hg (by rw [List.eq_nil_of_length_eq_zero hc]; rfl)
        exact ⟨by omega, by omega⟩

/-- C5: per-side uniqueness selection — a list of 0 or 1 folders resolves to
its head (or none) with no problem; a list of 2 or more resolves to none with
a duplicate problem whose details joins all candidate paths with `"; "`, and
the scan records that problem. -/
theorem c5_select_unique (base_key : String) (list : List SurveyFolder)
    (problem_type : String) :
    (list.length ≤ 1 → select_unique base_key list problem_type = (list.head?, none)) ∧
    (2 ≤ list.length →
      (select_unique base_key list problem_type).1 = none ∧
      (select_unique base_key list problem_type).2
        = some { survey_id_base := base_key
                 survey_id_detected := list.head?.bind (fun folder => folder.detected_id)
                 raw_path := none
                 graded_path := none
                 problem_type := problem_type
                 details := some (String.intercalate "; "
                   (list.map (fun folder => folder.path))) }) ∧
    (∀ (rawMap gradedMap : String → List SurveyFolder) (k : String),
      ∀ p, (select_unique k (rawMap k) "DUPLICATE_RAW").2 = some p →
        p ∈ (scan_key rawMap gradedMap k).2) := by
  refine ⟨fun h => select_unique_le_one base_key list problem_type h,
    fun h => by rw [select_unique_ge_two base_key list problem_type h]; exact ⟨rfl, rfl⟩, ?_⟩
  intro rawMap gradedMap k p hp
  have h0 : p ∈ (select_unique k (rawMap k) "DUPLICATE_RAW").2.toList := by
    rw [hp]
    exact List.mem_singleton.mpr rfl
  exact List.mem_append_left _ (List.mem_append_left _ (List.mem_append_left _ h0))

/-- Witness for `c5_select_unique` on a two-folder list. -/
theorem c5_select_unique_witness :
    (select_unique "K"
        [{ path := "root/a", detected_id := some "X" },
         { path := "root/b", detected_id := none }] "DUPLICATE_RAW").1 = none ∧
    (select_unique "K"
        [{ path := "root/a", detected_id := some "X" },
         { path := "root/b", detected_id := none }] "DUPLICATE_RAW").2
      = some { survey_id_base := "K"
               survey_id_detected :=
                 ([{ path := "root/a", detected_id := some "X" },
                   { path := "root/b", detected_id := none }] :
                     List SurveyFolder).head?.bind (fun folder => folder.detected_id)
               raw_path := none
               graded_path := none
               problem_type := "DUPLICATE_RAW"
               details := some (String.intercalate "; "
                 (([{ path := "root/a", detected_id := some "X" },
                    { path := "root/b", detected_id := none }] :
                      List SurveyFolder).map (fun folder => folder.path))) } :=
  (c5_select_unique "K"
    [{ path := "root/a", detected_id := some "X" },
     { path := "root/b", detected_id := none }] "DUPLICATE_RAW").2.1 (by decide)

/-- C6: the reconciliation result has exactly one scan entry per base key in
the union of the two discovery maps (none for keys outside it), and an
entry's status is `OK` iff both sides resolved to exactly one folder. -/
theorem c6_scan_entries (rawMap gradedMap : String → List SurveyFolder)
    (baseKeys : List String) (hnd : baseKeys.Nodup)
    (hmem : ∀ k, k ∈ baseKeys ↔ rawMap k ≠ [] ∨ gradedMap k ≠ []) :
    (∀ k, ((scan_roots rawMap gradedMap baseKeys).entries.filter
        (fun e => e.base_key == k)).length
      = if rawMap k ≠ [] ∨ gradedMap k ≠ [] then 1 else 0) ∧
    (∀ e ∈ (scan_roots rawMap gradedMap baseKeys).entries,
      e.status = "OK" ↔
        (rawMap e.base_key).length = 1 ∧ (gradedMap e.base_key).length = 1) := by
  have hent : (scan_roots rawMap gradedMap baseKeys).entries
      = List.insertionSort entryLe
        ((baseKeys.map (scan_key rawMap gradedMap)).map (fun p => p.1)) := rfl
  constructor
  · intro k
    rw [← List.countP_eq_length_filter, hent,
      (List.perm_insertionSort entryLe _).countP_eq, List.map_map]
    have hcount : ∀ l : List String,
        List.countP (fun e => e.base_key == k)
          (l.map ((fun p => p.1) ∘ scan_key rawMap gradedMap))
        = List.countP (fun x => x == k) l := by
      intro l
      induction l with
      | nil => rfl
      | cons a t ih =>
        simp only [List.map_cons, List.countP_cons, ih, Function.comp_apply, scan_key_base]
    rw [hcount]
    have hc : List.countP (fun x => x == k) baseKeys = List.count k baseKeys := rfl
    rw [hc]
    by_cases hk : k ∈ baseKeys
    · rw [if_pos ((hmem k).mp hk)]
      exact List.count_eq_one_of_mem hnd hk
    · rw [if_neg (fun hc2 => hk ((hmem k).mpr hc2))]
      exact List.count_eq_zero_of_not_mem hk
  · intro e he
    rw [hent] at he
    have he2 := (List.perm_insertionSort entryLe
      ((baseKeys.map (scan_key rawMap gradedMap)).map (fun p => p.1))).mem_iff.mp he
    rw [List.map_map] at he2
    obtain ⟨k, hk, hek⟩ := List.mem_map.mp he2
    subst hek
    simp only [Function.comp_apply, scan_key_base]
    exact scan_key_status_iff rawMap gradedMap k

/-- The union of `c6RawMap`/`c6GradedMap` keys is exactly `A`. -/
def c6RawMap : String → List SurveyFolder := fun k =>
  if k = "A" then [{ path := "rawA", detected_id := none }] else []

def c6GradedMap : String → List SurveyFolder := fun k =>
  if k = "A" then [{ path := "gradedA", detected_id := none }] else []

/-- Witness for `c6_scan_entries` on the one-key maps. -/
theorem c6_scan_entries_witness :
    (∀ k, ((scan_roots c6RawMap c6GradedMap ["A"]).entries.filter
        (fun e => e.base_key == k)).length
      = if c6RawMap k ≠ [] ∨ c6GradedMap k ≠ [] then 1 else 0) ∧
    (∀ e ∈ (scan_roots c6RawMap c6GradedMap ["A"]).entries,
      e.status = "OK" ↔
        (c6RawMap e.base_key).length = 1 ∧ (c6GradedMap e.base_key).length = 1) :=
  c6_scan_entries c6RawMap c6GradedMap ["A"] (by decide) (by
    intro k
    unfold c6RawMap c6GradedMap
    by_cases hk : k = "A"
    · subst hk
      simp
    · simp [hk])

/-- C8 (amended): the entry list of `scan_roots` is sorted by base key for
every pair of discovery maps and every enumeration. -/
theorem c8_entries_sorted (rawMap gradedMap : String → List SurveyFolder)
    (baseKeys : List String) :
    List.Sorted entryLe (scan_roots rawMap gradedMap baseKeys).entries := by
  have hent : (scan_roots rawMap gradedMap baseKeys).entries
      = List.insertionSort entryLe
        ((baseKeys.map (scan_key rawMap gradedMap)).map (fun p => p.1)) := rfl
  rw [hent]
  exact List.sorted_insertionSort entryLe _

def c8RawMap : String → List SurveyFolder := fun k =>
  if k = "A" then [{ path := "rawA", detected_id := none }]
  else if k = "B" then [{ path := "rawB", detected_id := none }]
  else []

def c8GradedMap : String → List SurveyFolder := fun _ => []

/-- Counterexample to C8 as stated: on a valid two-key input enumerated in
descending order the problems list comes out in iteration order `B, A` and is
not sorted by base key (the entries are sorted; the problems are not). -/
theorem c8_problems_unsorted :
    (["B", "A"] : List String).Nodup ∧
    (∀ k, k ∈ (["B", "A"] : List String) ↔ c8RawMap k ≠ [] ∨ c8GradedMap k ≠ []) ∧
    ((scan_roots c8RawMap c8GradedMap ["B", "A"]).problems.map
        (fun p => p.survey_id_base)) = ["B", "A"] ∧
    ¬ List.Sorted (fun a b : ProblemItem =>
        charListLeb a.survey_id_base.toList b.survey_id_base.toList = true)
      (scan_roots c8RawMap c8GradedMap ["B", "A"]).problems := by
  refine ⟨by decide, ?_, by decide, by decide⟩
  intro k
  unfold c8RawMap c8GradedMap
  by_cases hA : k = "A"
  · subst hA
    simp
  · by_cases hB : k = "B"
    · subst hB
      simp
    · simp [hA, hB]

/-!
## Run summaries (`run_root_scan` lib.rs 185-282, `run_single_pair`
lib.rs 284-349)

The CSV writers and directory creation are I/O effects outside the engine;
the per-pair filesystem contents are abstracted (by a `pairOf` function for
the full-tree run, and by the graded map / raw image list for the single-pair
run).  Output paths are joined with `/`.
-/

/-- Embeds `RootRunOptions` (lib.rs 40-47). -/
structure RootRunOptions where
  write_per_survey : Bool
  write_merged : Bool
  merged_filename : String
  problems_filename : String
  per_survey_dirname : String

/-- The five mutable counters of `run_root_scan` (lib.rs 217-221). -/
structure RunCounters where
  processed_surveys : Nat
  total_rows : Nat
  dolphin_yes : Nat
  dolphin_no : Nat
  ambiguity_warnings : Nat
deriving DecidableEq

/-- The row loop of `run_root_scan` (lib.rs 244-251): one total-row increment
per row, a yes-increment when its dolphin flag is 1, else a no-increment. -/
def tally_rows (acc : RunCounters) (rows : List CsvRow) : RunCounters :=
  rows.foldl
    (fun a row =>
      { a with
        total_rows := a.total_rows + 1
        dolphin_yes := if row.dolphin == 1 then a.dolphin_yes + 1 else a.dolphin_yes
        dolphin_no := if row.dolphin == 1 then a.dolphin_no else a.dolphin_no + 1 })
    acc

/-- Embeds `run_root_scan` (lib.rs 185-282): entries with status other than `OK` are
skipped; each OK entry bumps the processed count, adds its pair's ambiguity
warnings, and tallies its rows; the summary carries the counters, the problem
count, and the output paths. -/
def run_root_scan (scan : ScanResult) (pairOf : ScanEntry → PairResult)
    (output_dir : String) (options : RootRunOptions) : RunSummary :=
  let counters := scan.entries.foldl
    (fun acc entry =>
      if entry.status ≠ "OK" then acc
      else
        let pr := pairOf entry
        tally_rows
          { acc with
            processed_surveys := acc.processed_surveys + 1
            ambiguity_warnings := acc.ambiguity_warnings + pr.ambiguity_warnings }
          pr.rows)
    { processed_surveys := 0, total_rows := 0, dolphin_yes := 0, dolphin_no := 0,
      ambiguity_warnings := 0 }
  { processed_surveys := counters.processed_surveys
    total_rows := counters.total_rows
    dolphin_yes := counters.dolphin_yes
    dolphin_no := counters.dolphin_no
    ambiguity_warnings := counters.ambiguity_warnings
    problems_count := scan.problems.length
    output_dir := output_dir
    merged_csv_path :=
      if options.write_merged then some (output_dir ++ "/" ++ options.merged_filename)
      else none
    problems_csv_path :=
      if scan.problems.isEmpty then none
      else some (output_dir ++ "/" ++ options.problems_filename) }

/-- The survey-identity derivation of `run_single_pair` (lib.rs 298-311): an
override yielding a base key wins; otherwise detection against the graded
directory path; `none` triggers the descriptive error. -/
def derive_identity (rules : CompiledRules) (survey_id_override : Option String)
    (graded_dir : String) : Option (String × String) :=
  match survey_id_override.bind (fun value =>
      (extract_base_key rules.base_re value).map (fun base => (value, base))) with
  | some p => some p
  | none =>
    (extract_detected_id rules.detected_re graded_dir).bind (fun detected =>
      (extract_base_key rules.base_re detected).map (fun base => (detected, base)))

/-- Embeds `run_single_pair` (lib.rs 284-349): fails when no identity can be derived;
otherwise processes the single pair (the raw side's detected identity comes
from the raw directory path, the graded side's is the derived full identity)
and reports a summary with `problems_count` 0 and no problems CSV.  The
row loop counting yes/no (lib.rs 330-336) is embedded as the two counts. -/
def run_single_pair (rules : CompiledRules) (graded_dir raw_dir : String)
    (survey_id_override : Option String) (output_dir output_filename : String)
    (gmap : String → List String) (gradedWarnings : Nat) (imgs : List RawImage) :
    Except String RunSummary :=
  match derive_identity rules survey_id_override graded_dir with
  | none => Except.error "Unable to derive survey id base; please provide an override."
  | some (detected_full, base_key) =>
    let pr := process_pair rules base_key (extract_detected_id rules.detected_re raw_dir)
      (some detected_full) gmap gradedWarnings imgs
    Except.ok
      { processed_surveys := 1
        total_rows := pr.rows.length
        dolphin_yes := pr.rows.countP (fun row => row.dolphin == 1)
        dolphin_no := pr.rows.countP (fun row => !(row.dolphin == 1))
        ambiguity_warnings := pr.ambiguity_warnings
        problems_count := 0
        output_dir := output_dir
        merged_csv_path := some (output_dir ++ "/" ++ output_filename)
        problems_csv_path := none }

theorem tally_rows_eq (acc : RunCounters) (rows : List CsvRow) :
    tally_rows acc rows
      = { acc with
          total_rows := acc.total_rows + rows.length
          dolphin_yes := acc.dolphin_yes + rows.countP (fun row => row.dolphin == 1)
          dolphin_no := acc.dolphin_no + rows.countP (fun row => !(row.dolphin == 1)) } := by
  induction rows generalizing acc with
  | nil => simp [tally_rows]
  | cons row rest ih =>
    unfold tally_rows
    rw [List.foldl_cons]
    have hstep := ih { acc with
      total_rows := acc.total_rows + 1
      dolphin_yes := if row.dolphin == 1 then acc.dolphin_yes + 1 else acc.dolphin_yes
      dolphin_no := if row.dolphin == 1 then acc.dolphin_no else acc.dolphin_no + 1 }
    unfold tally_rows at hstep
    rw [hstep]
    cases hdol : row.dolphin == 1 <;>
      simp [hdol, List.countP_cons, RunCounters.mk.injEq] <;>
      omega

theorem run_counters_eq (pairOf : ScanEntry → PairResult) :
    ∀ (entries : List ScanEntry) (acc : RunCounters),
      entries.foldl
        (fun acc entry =>
          if entry.status ≠ "OK" then acc
          else
            let pr := pairOf entry
            tally_rows
              { acc with
                processed_surveys := acc.processed_surveys + 1
                ambiguity_warnings := acc.ambiguity_warnings + pr.ambiguity_warnings }
              pr.rows) acc
      = { processed_surveys := acc.processed_surveys
            + entries.countP (fun e => e.status == "OK")
          total_rows := acc.total_rows
            + ((entries.filter (fun e => e.status == "OK")).map
              (fun e => (pairOf e).rows.length)).sum
          dolphin_yes := acc.dolphin_yes
            + ((entries.filter (fun e => e.status == "OK")).map
              (fun e => (pairOf e).rows.countP (fun row => row.dolphin == 1))).sum
          dolphin_no := acc.dolphin_no
            + ((entries.filter (fun e => e.status == "OK")).map
              (fun e => (pairOf e).rows.countP (fun row => !(row.dolphin == 1)))).sum
          ambiguity_warnings := acc.ambiguity_warnings
            + ((entries.filter (fun e => e.status == "OK")).map
              (fun e => (pairOf e).ambiguity_warnings)).sum } := by
  intro entries
  induction entries with
  | nil => intro acc; simp
  | cons e rest ih =>
    intro acc
    rw [List.foldl_cons]
    by_cases he : e.status = "OK"
    · rw [if_neg (not_not_intro he), tally_rows_eq, ih]
      simp [List.filter_cons, List.countP_cons, he, RunCounters.mk.injEq] <;> omega
    · rw [if_pos he, ih]
      simp [List.filter_cons, List.countP_cons, he, RunCounters.mk.injEq]

theorem countP_add_countP_not {α : Type} (p : α → Bool) (l : List α) :
    l.countP p + l.countP (fun a => !(p a)) = l.length := by
  induction l with
  | nil => rfl
  | cons a t ih =>
    cases hp : p a <;> simp [List.countP_cons, hp] <;> omega

theorem sum_map_add {α : Type} (l : List α) (f g : α → Nat) :
    (l.map f).sum + (l.map g).sum = (l.map (fun x => f x + g x)).sum := by
  induction l with
  | nil => rfl
  | cons x t ih =>
    simp only [List.map_cons, List.sum_cons, ← ih]
    omega

/-- The summary of a full-tree run, in closed form. -/
theorem run_root_scan_eq (scan : ScanResult) (pairOf : ScanEntry → PairResult)
    (output_dir : String) (options : RootRunOptions) :
    run_root_scan scan pairOf output_dir options
      = { processed_surveys := scan.entries.countP (fun e => e.status == "OK")
          total_rows := ((scan.entries.filter (fun e => e.status == "OK")).map
            (fun e => (pairOf e).rows.length)).sum
          dolphin_yes := ((scan.entries.filter (fun e => e.status == "OK")).map
            (fun e => (pairOf e).rows.countP (fun row => row.dolphin == 1))).sum
          dolphin_no := ((scan.entries.filter (fun e => e.status == "OK")).map
            (fun e => (pairOf e).rows.countP (fun row => !(row.dolphin == 1)))).sum
          ambiguity_warnings := ((scan.entries.filter (fun e => e.status == "OK")).map
            (fun e => (pairOf e).ambiguity_warnings)).sum
          problems_count := scan.problems.length
          output_dir := output_dir
          merged_csv_path :=
            if options.write_merged then some (output_dir ++ "/" ++ options.merged_filename)
            else none
          problems_csv_path :=
            if scan.problems.isEmpty then none
            else some (output_dir ++ "/" ++ options.problems_filename) } := by
  unfold run_root_scan
  rw [run_counters_eq pairOf scan.entries]
  simp

theorem run_single_pair_err (rules : CompiledRules) (graded_dir raw_dir : String)
    (ov : Option String) (output_dir output_filename : String)
    (gmap : String → List String) (gradedWarnings : Nat) (imgs : List RawImage)
    (h : derive_identity rules ov graded_dir = none) :
    run_single_pair rules graded_dir raw_dir ov output_dir output_filename gmap
        gradedWarnings imgs
      = Except.error "Unable to derive survey id base; please provide an override." := by
  unfold run_single_pair
  rw [h]

theorem run_single_pair_ok (rules : CompiledRules) (graded_dir raw_dir : String)
    (ov : Option String) (output_dir output_filename : String)
    (gmap : String → List String) (gradedWarnings : Nat) (imgs : List RawImage)
    (d b : String) (h : derive_identity rules ov graded_dir = some (d, b)) :
    run_single_pair rules graded_dir raw_dir ov output_dir output_filename gmap
        gradedWarnings imgs
      = Except.ok
        { processed_surveys := 1
          total_rows := (process_pair rules b
            (extract_detected_id rules.detected_re raw_dir) (some d) gmap
            gradedWarnings imgs).rows.length
          dolphin_yes := (process_pair rules b
            (extract_detected_id rules.detected_re raw_dir) (some d) gmap
            gradedWarnings imgs).rows.countP (fun row => row.dolphin == 1)
          dolphin_no := (process_pair rules b
            (extract_detected_id rules.detected_re raw_dir) (some d) gmap
            gradedWarnings imgs).rows.countP (fun row => !(row.dolphin == 1))
          ambiguity_warnings := (process_pair rules b
            (extract_detected_id rules.detected_re raw_dir) (some d) gmap
            gradedWarnings imgs).ambiguity_warnings
          problems_count := 0
          output_dir := output_dir
          merged_csv_path := some (output_dir ++ "/" ++ output_filename)
          problems_csv_path := none } := by
  unfold run_single_pair
  rw [h]

/-- The default rule set restricted to the fields the single-pair run reads:
the concrete survey-identity matchers and the test classification rules. -/
def c9Rules : CompiledRules where
  detected_re := surveyDetectedCaptures
  base_re := surveyBaseCaptures
  imageIdCapture := fun _ => none
  indMatch := indMatchBInd
  secondary_tokens := ["best"]
  negative_tokens := []
  positive_tokens := ["*"]

/-- C9 (amended): the single-pair run fails with the descriptive error exactly
when identity derivation fails, i.e. when neither the override (when supplied)
yields a base key nor detection on the graded directory yields an identity
with a base key; an override that yields a base key is used instead of
detection; a successful run reports problems_count 0 and no problems CSV
path. -/
theorem c9_single_pair_identity :
    (∀ (rules : CompiledRules) (graded_dir raw_dir : String) (ov : Option String)
        (output_dir output_filename : String) (gmap : String → List String)
        (gradedWarnings : Nat) (imgs : List RawImage),
      run_single_pair rules graded_dir raw_dir ov output_dir output_filename gmap
          gradedWarnings imgs
        = Except.error "Unable to derive survey id base; please provide an override."
      ↔ derive_identity rules ov graded_dir = none) ∧
    (∀ (rules : CompiledRules) (ov : Option String) (graded_dir v b : String),
      ov = some v → extract_base_key rules.base_re v = some b →
      derive_identity rules ov graded_dir = some (v, b)) ∧
    (∀ (rules : CompiledRules) (ov : Option String) (graded_dir : String),
      derive_identity rules ov graded_dir = none ↔
        (ov.bind (fun value => (extract_base_key rules.base_re value).map
            (fun base => (value, base)))) = none ∧
        ((extract_detected_id rules.detected_re graded_dir).bind (fun detected =>
          (extract_base_key rules.base_re detected).map
            (fun base => (detected, base)))) = none) ∧
    (∀ (rules : CompiledRules) (graded_dir raw_dir : String) (ov : Option String)
        (output_dir output_filename : String) (gmap : String → List String)
        (gradedWarnings : Nat) (imgs : List RawImage) (s : RunSummary),
      run_single_pair rules graded_dir raw_dir ov output_dir output_filename gmap
          gradedWarnings imgs = Except.ok s →
      s.problems_count = 0 ∧ s.problems_csv_path = none) := by
  refine ⟨?_, ?_, ?_, ?_⟩
  · intro rules graded_dir raw_dir ov output_dir output_filename gmap gradedWarnings imgs
    constructor
    · intro herr
      cases hder : derive_identity rules ov graded_dir with
      | none => rfl
      | some p =>
        rw [run_single_pair_ok rules graded_dir raw_dir ov output_dir output_filename
          gmap gradedWarnings imgs p.1 p.2 (by rw [hder])] at herr
        exact absurd herr (by simp)
    · intro hder
      exact run_single_pair_err rules graded_dir raw_dir ov output_dir output_filename
        gmap gradedWarnings imgs hder
  · intro rules ov graded_dir v b hov hb
    subst hov
    unfold derive_identity
    rw [Option.some_bind, hb]
    rfl
  · intro rules ov graded_dir
    unfold derive_identity
    cases hx : ov.bind (fun value => (extract_base_key rules.base_re value).map
        (fun base => (value, base))) with
    | some p => exact iff_of_false (by simp) (by simp)
    | none => simp
  · intro rules graded_dir raw_dir ov output_dir output_filename gmap gradedWarnings
      imgs s hrun
    cases hder : derive_identity rules ov graded_dir with
    | none =>
      rw [run_single_pair_err rules graded_dir raw_dir ov output_dir output_filename
        gmap gradedWarnings imgs hder] at hrun
      exact absurd hrun (by simp)
    | some p =>
      rw [run_single_pair_ok rules graded_dir raw_dir ov output_dir output_filename
        gmap gradedWarnings imgs p.1 p.2 (by rw [hder])] at hrun
      injection hrun with hs
      rw [← hs]
      exact ⟨rfl, rfl⟩

/-- Witness for `c9_single_pair_identity`: an override carrying a valid
survey identity is used directly for the identity pair. -/
theorem c9_single_pair_identity_witness :
    derive_identity c9Rules (some "20250101_AB_CD") "/graded/misc"
      = some ("20250101_AB_CD", "20250101_AB") :=
  c9_single_pair_identity.2.1 c9Rules (some "20250101_AB_CD") "/graded/misc"
    "20250101_AB_CD" "20250101_AB" rfl (by decide)

/-- Counterexample to C9 as stated: an override was supplied, yet the run
still fails (the override yields no base key and detection finds nothing), so
failing does not require that no override was supplied. -/
theorem c9_override_still_fails :
    run_single_pair c9Rules "/graded/misc" "/raw/misc" (some "not-a-survey-id")
        "/out" "out.csv" (fun _ => []) 0 []
      = Except.error "Unable to derive survey id base; please provide an override." ∧
    (some "not-a-survey-id" : Option String) ≠ none :=
  ⟨run_single_pair_err c9Rules "/graded/misc" "/raw/misc" (some "not-a-survey-id")
      "/out" "out.csv" (fun _ => []) 0 [] (by decide),
    by simp⟩

/-- C10: every run summary of the full-tree and single-pair runs satisfies
dolphin_yes + dolphin_no = total_rows, with total_rows the number of rows
produced across the processed surveys, dolphin_yes the rows with flag 1 and
dolphin_no the remaining rows. -/
theorem c10_summary_counts :
    (∀ (scan : ScanResult) (pairOf : ScanEntry → PairResult) (output_dir : String)
        (options : RootRunOptions),
      (run_root_scan scan pairOf output_dir options).dolphin_yes
          + (run_root_scan scan pairOf output_dir options).dolphin_no
        = (run_root_scan scan pairOf output_dir options).total_rows ∧
      (run_root_scan scan pairOf output_dir options).total_rows
        = ((scan.entries.filter (fun e => e.status == "OK")).map
          (fun e => (pairOf e).rows.length)).sum ∧
      (run_root_scan scan pairOf output_dir options).dolphin_yes
        = ((scan.entries.filter (fun e => e.status == "OK")).map
          (fun e => (pairOf e).rows.countP (fun row => row.dolphin == 1))).sum ∧
      (run_root_scan scan pairOf output_dir options).dolphin_no
        = ((scan.entries.filter (fun e => e.status == "OK")).map
          (fun e => (pairOf e).rows.countP (fun row => !(row.dolphin == 1)))).sum) ∧
    (∀ (rules : CompiledRules) (graded_dir raw_dir : String) (ov : Option String)
        (output_dir output_filename : String) (gmap : String → List String)
        (gradedWarnings : Nat) (imgs : List RawImage) (d b : String) (s : RunSummary),
      derive_identity rules ov graded_dir = some (d, b) →
      run_single_pair rules graded_dir raw_dir ov output_dir output_filename gmap
          gradedWarnings imgs = Except.ok s →
      s.dolphin_yes + s.dolphin_no = s.total_rows ∧
      s.total_rows = (process_pair rules b (extract_detected_id rules.detected_re raw_dir)
        (some d) gmap gradedWarnings imgs).rows.length ∧
      s.dolphin_yes = (process_pair rules b (extract_detected_id rules.detected_re raw_dir)
        (some d) gmap gradedWarnings imgs).rows.countP (fun row => row.dolphin == 1) ∧
      s.dolphin_no = (process_pair rules b (extract_detected_id rules.detected_re raw_dir)
        (some d) gmap gradedWarnings imgs).rows.countP
          (fun row => !(row.dolphin == 1))) := by
  constructor
  · intro scan pairOf output_dir options
    rw [run_root_scan_eq scan pairOf output_dir options]
    refine ⟨?_, rfl, rfl, rfl⟩
    show ((scan.entries.filter (fun e => e.status == "OK")).map
        (fun e => (pairOf e).rows.countP (fun row => row.dolphin == 1))).sum
      + ((scan.entries.filter (fun e => e.status == "OK")).map
        (fun e => (pairOf e).rows.countP (fun row => !(row.dolphin == 1)))).sum
      = ((scan.entries.filter (fun e => e.status == "OK")).map
        (fun e => (pairOf e).rows.length)).sum
    rw [sum_map_add]
    have hmapeq : (scan.entries.filter (fun e => e.status == "OK")).map
        (fun e => (pairOf e).rows.countP (fun row => row.dolphin == 1)
          + (pairOf e).rows.countP (fun row => !(row.dolphin == 1)))
      = (scan.entries.filter (fun e => e.status == "OK")).map
        (fun e => (pairOf e).rows.length) :=
      List.map_congr_left (fun e _ => countP_add_countP_not _ _)
    rw [hmapeq]
  · intro rules graded_dir raw_dir ov output_dir output_filename gmap gradedWarnings
      imgs d b s hder hrun
    rw [run_single_pair_ok rules graded_dir raw_dir ov output_dir output_filename gmap
      gradedWarnings imgs d b hder] at hrun
    injection hrun with hs
    rw [← hs]
    exact ⟨countP_add_countP_not _ _, rfl, rfl, rfl⟩

/-- Witness for `c10_summary_counts`: its single-pair clause at a concrete
successful run with no raw images. -/
theorem c10_summary_counts_witness :
    (0 : Nat) + 0 = 0 ∧
    0 = (process_pair c9Rules "20250101_AB"
      (extract_detected_id c9Rules.detected_re "/raw/x") (some "20250101_AB_CD")
      (fun _ => []) 0 []).rows.length ∧
    0 = (process_pair c9Rules "20250101_AB"
      (extract_detected_id c9Rules.detected_re "/raw/x") (some "20250101_AB_CD")
      (fun _ => []) 0 []).rows.countP (fun row => row.dolphin == 1) ∧
    0 = (process_pair c9Rules "20250101_AB"
      (extract_detected_id c9Rules.detected_re "/raw/x") (some "20250101_AB_CD")
      (fun _ => []) 0 []).rows.countP (fun row => !(row.dolphin == 1)) :=
  c10_summary_counts.2 c9Rules "/data/20250101_AB_CD/x" "/raw/x" none "/out" "o.csv"
    (fun _ => []) 0 [] "20250101_AB_CD" "20250101_AB"
    { processed_surveys := 1, total_rows := 0, dolphin_yes := 0, dolphin_no := 0,
      ambiguity_warnings := 0, problems_count := 0, output_dir := "/out",
      merged_csv_path := some "/out/o.csv", problems_csv_path := none }
    (by decide) rfl
